import Mathlib

/-!
Verification of the logo-soup image metrics engine.

The pixel-metrics extractor (`src/analyze.ts`) is embedded over `ℕ` and `ℚ`:
a decoded RGBA pixel buffer is a byte lookup `ℕ → ℕ` (4 bytes per pixel,
row-major), and the bounding-box / density scans are folds over the row-major
traversal order of the nested loops.  The size normalizer
(`src/normalize.ts`) is embedded over `ℝ`, with JavaScript float
exponentiation `**` modelled by real `rpow` and `Math.round` modelled by
Mathlib `round` (both round half toward positive infinity).
-/

namespace LogoSoup

/-- An RGB color triple, one value per channel, as used for the estimated
background color in `src/analyze.ts`. -/
structure RGB where
  r : ℕ
  g : ℕ
  b : ℕ
deriving DecidableEq

/-- A content bounding box in pixel-buffer coordinates (`ContentBox` in
`src/types.ts`). -/
structure ContentBox where
  x : ℕ
  y : ℕ
  width : ℕ
  height : ℕ
deriving DecidableEq

/-- Running scan state of the bounding-box loop in
`detectContentBoundingBox`: current min and max content-pixel coordinates. -/
structure ScanState where
  minX : ℕ
  minY : ℕ
  maxX : ℕ
  maxY : ℕ
deriving DecidableEq

/-- Shared content classification (`isContentPixel` in `src/analyze.ts`):
in alpha-mode the alpha test alone decides; in color-mode the pixel must
additionally differ from the background in at least one channel by more than
the threshold (absolute difference). -/
def isContentPixel (r g b a threshold : ℕ) (alphaOnly : Bool) (bg : RGB) : Bool :=
  if alphaOnly then
    decide (threshold < a)
  else
    decide (threshold < a) &&
      (decide ((threshold : ℤ) < |(r : ℤ) - (bg.r : ℤ)|) ||
       decide ((threshold : ℤ) < |(g : ℤ) - (bg.g : ℤ)|) ||
       decide ((threshold : ℤ) < |(b : ℤ) - (bg.b : ℤ)|))

/-- Row-major traversal order of a `height × width` grid: the outer loop of
`src/analyze.ts` runs over rows `y`, the inner loop over columns `x`. -/
def coords (height width : ℕ) : List (ℕ × ℕ) :=
  (List.range height).flatMap fun y => (List.range width).map fun x => (y, x)

/-- One iteration of the bounding-box scan of `detectContentBoundingBox`:
a content pixel widens the running min/max extents. -/
def bboxStep (pixels : ℕ → ℕ) (width threshold : ℕ) (alphaOnly : Bool) (bg : RGB)
    (s : ScanState) (p : ℕ × ℕ) : ScanState :=
  let i := (p.1 * width + p.2) * 4
  if isContentPixel (pixels i) (pixels (i + 1)) (pixels (i + 2)) (pixels (i + 3))
      threshold alphaOnly bg then
    ⟨min s.minX p.2, min s.minY p.1, max s.maxX p.2, max s.maxY p.1⟩
  else
    s

/-- `detectContentBoundingBox` from `src/analyze.ts`: scan every pixel,
track min/max coordinates of content pixels starting from the sentinel state
`minX = width, minY = height, maxX = 0, maxY = 0`; if no content pixel was
seen (`minX > maxX || minY > maxY`), fall back to the full-canvas box. -/
def detectContentBoundingBox (pixels : ℕ → ℕ) (width height threshold : ℕ)
    (alphaOnly : Bool) (bg : RGB) : ContentBox :=
  let s := (coords height width).foldl (bboxStep pixels width threshold alphaOnly bg)
    ⟨width, height, 0, 0⟩
  if s.maxX < s.minX ∨ s.maxY < s.minY then
    ⟨0, 0, width, height⟩
  else
    ⟨s.minX, s.minY, s.maxX - s.minX + 1, s.maxY - s.minY + 1⟩

/-- One iteration of the density scan of `measurePixelDensity`: a pixel
classified as filled against the fixed white background bumps the filled
count and accumulates its opacity `a / 255`. -/
def densityStep (pixels : ℕ → ℕ) (width threshold : ℕ) (alphaOnly : Bool)
    (box : ContentBox) (s : ℕ × ℚ) (p : ℕ × ℕ) : ℕ × ℚ :=
  let i := ((box.y + p.1) * width + (box.x + p.2)) * 4
  if isContentPixel (pixels i) (pixels (i + 1)) (pixels (i + 2)) (pixels (i + 3))
      threshold alphaOnly ⟨255, 255, 255⟩ then
    (s.1 + 1, s.2 + (pixels (i + 3) : ℚ) / 255)
  else
    s

/-- `measurePixelDensity` from `src/analyze.ts`: within the content box,
re-classify pixels against a fixed white background; density is
`(filled / totalBoxPixels) * (totalOpacity / filled)`, with `0.5` as the
neutral default for a zero-pixel box and `0` when nothing is filled. -/
def measurePixelDensity (pixels : ℕ → ℕ) (width : ℕ) (box : ContentBox)
    (threshold : ℕ) (alphaOnly : Bool) : ℚ :=
  let totalPixels := box.width * box.height
  if totalPixels = 0 then
    1 / 2
  else
    let s := (coords box.height box.width).foldl
      (densityStep pixels width threshold alphaOnly box) (0, 0)
    if s.1 = 0 then
      0
    else
      ((s.1 : ℚ) / (totalPixels : ℚ)) * (s.2 / (s.1 : ℚ))

/-- Centroid weight of a content pixel in `calculateVisualCenter`: in
alpha-mode the opacity `a / 255`; in color-mode the square root of the
Euclidean color distance to the background, times the opacity. -/
noncomputable def visualWeight (r g b a : ℕ) (alphaOnly : Bool) (bg : RGB) : ℝ :=
  if alphaOnly then
    (a : ℝ) / 255
  else
    let dr : ℝ := (r : ℝ) - (bg.r : ℝ)
    let dg : ℝ := (g : ℝ) - (bg.g : ℝ)
    let db : ℝ := (b : ℝ) - (bg.b : ℝ)
    Real.sqrt (Real.sqrt (dr * dr + dg * dg + db * db)) * ((a : ℝ) / 255)

/-- One iteration of the weighted-centroid scan of `calculateVisualCenter`:
accumulates `(totalWeight, weightedX, weightedY)`. -/
noncomputable def centerStep (pixels : ℕ → ℕ) (width threshold : ℕ)
    (alphaOnly : Bool) (bg : RGB) (box : ContentBox)
    (s : ℝ × ℝ × ℝ) (p : ℕ × ℕ) : ℝ × ℝ × ℝ :=
  let i := ((box.y + p.1) * width + (box.x + p.2)) * 4
  if isContentPixel (pixels i) (pixels (i + 1)) (pixels (i + 2)) (pixels (i + 3))
      threshold alphaOnly bg then
    let w := visualWeight (pixels i) (pixels (i + 1)) (pixels (i + 2)) (pixels (i + 3))
      alphaOnly bg
    (s.1 + w, s.2.1 + ((p.2 : ℝ) + 0.5) * w, s.2.2 + ((p.1 : ℝ) + 0.5) * w)
  else
    s

/-- `calculateVisualCenter` from `src/analyze.ts`: weighted centroid of the
content pixels inside the box, as a signed offset from the geometric center
of the box; `(0, 0)` when the total weight is zero. -/
noncomputable def calculateVisualCenter (pixels : ℕ → ℕ) (width : ℕ)
    (box : ContentBox) (threshold : ℕ) (alphaOnly : Bool) (bg : RGB) : ℝ × ℝ :=
  let s := (coords box.height box.width).foldl
    (centerStep pixels width threshold alphaOnly bg box) (0, 0, 0)
  if s.1 = 0 then
    (0, 0)
  else
    (s.2.1 / s.1 - (box.width : ℝ) / 2, s.2.2 / s.1 - (box.height : ℝ) / 2)

/-- The `Metrics` record of `src/types.ts`: the public result of the
pixel-metrics extractor and the input of the size normalizer. -/
structure Metrics where
  contentRatio : ℝ
  pixelDensity : ℝ
  visualCenterX : ℝ
  visualCenterY : ℝ

/-- The pixel-metrics stage of `analyze` from `src/analyze.ts`, starting
from the decoded pixel buffer (decoding itself is an external collaborator):
detect the content box, return the no-content result when the box has zero
width or height, and otherwise assemble the `Metrics` value. -/
noncomputable def analyze (pixels : ℕ → ℕ) (width height threshold : ℕ)
    (alphaOnly : Bool) (bg : RGB) : Option Metrics :=
  let contentBox := detectContentBoundingBox pixels width height threshold alphaOnly bg
  if contentBox.width = 0 ∨ contentBox.height = 0 then
    none
  else
    let visualCenter := calculateVisualCenter pixels width contentBox threshold alphaOnly bg
    let density := measurePixelDensity pixels width contentBox threshold alphaOnly
    some
      { contentRatio := (contentBox.width : ℝ) / (contentBox.height : ℝ)
        pixelDensity := (density : ℝ)
        visualCenterX := visualCenter.1 / (contentBox.width : ℝ)
        visualCenterY := visualCenter.2 / (contentBox.height : ℝ) }

/-- The `NormalizeOptions` configuration of `src/normalize.ts`, with all
defaults resolved to explicit values. -/
structure NormalizeOptions where
  baseSize : ℝ
  scaleFactor : ℝ
  densityFactor : ℝ
  densityDampening : ℝ
  referenceDensity : ℝ

/-- The `NormalizedDimensions` record of `src/types.ts`: integer width and
height, sub-pixel offsets. -/
structure NormalizedDimensions where
  width : ℤ
  height : ℤ
  offsetX : ℝ
  offsetY : ℝ

/-- Step 1 of `normalize` (`src/normalize.ts`): aspect-ratio power-law
sizing, `width = ratio ** scaleFactor * baseSize`. -/
noncomputable def rawWidth (m : Metrics) (o : NormalizeOptions) : ℝ :=
  m.contentRatio ^ o.scaleFactor * o.baseSize

/-- Step 1 of `normalize`, height part: `height = width / ratio`. -/
noncomputable def rawHeight (m : Metrics) (o : NormalizeOptions) : ℝ :=
  rawWidth m o / m.contentRatio

/-- The unclamped density-compensation scale of `normalize`:
`(1 / (pixelDensity / referenceDensity)) ** (densityFactor * densityDampening)`. -/
noncomputable def densityScale (m : Metrics) (o : NormalizeOptions) : ℝ :=
  (1 / (m.pixelDensity / o.referenceDensity)) ^ (o.densityFactor * o.densityDampening)

/-- The density-compensation scale of `normalize` after clamping to
`[0.5, 2.0]`. -/
noncomputable def clampedScale (m : Metrics) (o : NormalizeOptions) : ℝ :=
  max 0.5 (min 2.0 (densityScale m o))

/-- The pre-rounding width of `normalize`: the power-law width, multiplied
by the clamped density scale when the compensation branch is taken
(`densityFactor > 0 && pixelDensity > 0`). -/
noncomputable def scaledWidth (m : Metrics) (o : NormalizeOptions) : ℝ :=
  if 0 < o.densityFactor ∧ 0 < m.pixelDensity then
    rawWidth m o * clampedScale m o
  else
    rawWidth m o

/-- The pre-rounding height of `normalize`, scaled by the same clamped
density scale as the width. -/
noncomputable def scaledHeight (m : Metrics) (o : NormalizeOptions) : ℝ :=
  if 0 < o.densityFactor ∧ 0 < m.pixelDensity then
    rawHeight m o * clampedScale m o
  else
    rawHeight m o

/-- `normalize` from `src/normalize.ts`: round width/height to the nearest
integer (`Math.round`, ties toward positive infinity), and the sign-inverted
visual-center offsets to one decimal place. -/
noncomputable def normalize (m : Metrics) (o : NormalizeOptions) : NormalizedDimensions :=
  { width := round (scaledWidth m o)
    height := round (scaledHeight m o)
    offsetX := (round (-m.visualCenterX * scaledWidth m o * 10) : ℝ) / 10
    offsetY := (round (-m.visualCenterY * scaledHeight m o * 10) : ℝ) / 10 }

theorem foldl_inv {α β : Type} (f : β → α → β) (P : β → Prop) :
    ∀ (l : List α) (s : β), P s → (∀ b a, a ∈ l → P b → P (f b a)) → P (l.foldl f s)
  | [], _, hs, _ => hs
  | x :: xs, s, hs, hstep =>
    foldl_inv f P xs (f s x) (hstep s x (List.mem_cons_self x xs) hs)
      fun b a ha hb => hstep b a (List.mem_cons_of_mem x ha) hb

theorem coords_mem {h w : ℕ} {p : ℕ × ℕ} (hp : p ∈ coords h w) : p.1 < h ∧ p.2 < w := by
  unfold coords at hp
  simp only [List.mem_flatMap, List.mem_map, List.mem_range] at hp
  obtain ⟨y, hy, x, hx, rfl⟩ := hp
  exact ⟨hy, hx⟩

theorem coords_length (h w : ℕ) : (coords h w).length = h * w := by
  unfold coords
  induction h with
  | zero => simp
  | succ n ih =>
    rw [List.range_succ, List.flatMap_append, List.length_append, ih]
    simp [Nat.succ_mul]

theorem coords_zero_right (h : ℕ) : coords h 0 = [] := by
  rw [List.eq_nil_iff_forall_not_mem]
  intro p hp
  exact absurd (coords_mem hp).2 (Nat.not_lt_zero _)

theorem bboxFold_extents (pixels : ℕ → ℕ) (width height threshold : ℕ) (alphaOnly : Bool)
    (bg : RGB) :
    (((coords height width).foldl (bboxStep pixels width threshold alphaOnly bg)
          ⟨width, height, 0, 0⟩).maxX = 0 ∨
        ((coords height width).foldl (bboxStep pixels width threshold alphaOnly bg)
          ⟨width, height, 0, 0⟩).maxX < width) ∧
      (((coords height width).foldl (bboxStep pixels width threshold alphaOnly bg)
          ⟨width, height, 0, 0⟩).maxY = 0 ∨
        ((coords height width).foldl (bboxStep pixels width threshold alphaOnly bg)
          ⟨width, height, 0, 0⟩).maxY < height) := by
  refine foldl_inv _
    (fun s : ScanState => (s.maxX = 0 ∨ s.maxX < width) ∧ (s.maxY = 0 ∨ s.maxY < height))
    (coords height width) ⟨width, height, 0, 0⟩ ⟨Or.inl rfl, Or.inl rfl⟩ ?_
  intro b a ha hb
  obtain ⟨hy, hx⟩ := coords_mem ha
  obtain ⟨hbx, hby⟩ := hb
  simp only [bboxStep]
  split
  · constructor <;> dsimp only <;> omega
  · exact ⟨hbx, hby⟩

theorem bboxFold_of_no_content (pixels : ℕ → ℕ) (width threshold : ℕ) (alphaOnly : Bool)
    (bg : RGB) :
    ∀ (l : List (ℕ × ℕ)) (s : ScanState),
      (∀ p ∈ l, isContentPixel (pixels ((p.1 * width + p.2) * 4))
        (pixels ((p.1 * width + p.2) * 4 + 1)) (pixels ((p.1 * width + p.2) * 4 + 2))
        (pixels ((p.1 * width + p.2) * 4 + 3)) threshold alphaOnly bg = false) →
      l.foldl (bboxStep pixels width threshold alphaOnly bg) s = s
  | [], _, _ => rfl
  | x :: xs, s, hnc => by
    have hx := hnc x (List.mem_cons_self x xs)
    have hstep : bboxStep pixels width threshold alphaOnly bg s x = s := by
      simp [bboxStep, hx]
    rw [List.foldl_cons, hstep]
    exact bboxFold_of_no_content pixels width threshold alphaOnly bg xs s
      fun p hp => hnc p (List.mem_cons_of_mem x hp)

/-- C8 (amended): for every pixel buffer whose width or height is at least
one, the detected content box stays inside the buffer: `0 ≤ x`, `0 ≤ y`
(automatic over `ℕ`), `x + width ≤ bufferWidth` and `y + height ≤
bufferHeight`, in both the content-found and the fallback case. The one
excluded buffer shape is `0 × 0`, where the scan state makes the code return
a `1 × 1` box. -/
theorem contentBox_within_bounds (pixels : ℕ → ℕ) (width height threshold : ℕ)
    (alphaOnly : Bool) (bg : RGB) (hwh : 1 ≤ width ∨ 1 ≤ height) :
    0 ≤ (detectContentBoundingBox pixels width height threshold alphaOnly bg).x ∧
      0 ≤ (detectContentBoundingBox pixels width height threshold alphaOnly bg).y ∧
      (detectContentBoundingBox pixels width height threshold alphaOnly bg).x +
        (detectContentBoundingBox pixels width height threshold alphaOnly bg).width ≤ width ∧
      (detectContentBoundingBox pixels width height threshold alphaOnly bg).y +
        (detectContentBoundingBox pixels width height threshold alphaOnly bg).height ≤ height := by
  refine ⟨Nat.zero_le _, Nat.zero_le _, ?_⟩
  have hext := bboxFold_extents pixels width height threshold alphaOnly bg
  by_cases hw0 : width = 0
  · subst hw0
    have hh : 1 ≤ height := by
      rcases hwh with h | h
      · omega
      · exact h
    simp only [detectContentBoundingBox, coords_zero_right, List.foldl_nil]
    rw [if_pos (show (0 : ℕ) < 0 ∨ 0 < height from Or.inr hh)]
    refine ⟨?_, ?_⟩ <;> dsimp only <;> omega
  · by_cases hh0 : height = 0
    · subst hh0
      have hw : 1 ≤ width := by omega
      have hco : coords 0 width = [] := rfl
      simp only [detectContentBoundingBox, hco, List.foldl_nil]
      rw [if_pos (show (0 : ℕ) < width ∨ 0 < 0 from Or.inl hw)]
      refine ⟨?_, ?_⟩ <;> dsimp only <;> omega
    · have hw : 1 ≤ width := by omega
      have hh : 1 ≤ height := by omega
      simp only [detectContentBoundingBox]
      split
      · refine ⟨?_, ?_⟩ <;> dsimp only <;> omega
      · rename_i hcond
        push_neg at hcond
        dsimp only
        obtain ⟨hx, hy⟩ := hext
        obtain ⟨hcx, hcy⟩ := hcond
        constructor <;> omega

/-- C8 counterexample: on the degenerate `0 × 0` buffer the sentinel scan
state is `minX = maxX = minY = maxY = 0`, the no-content test `minX > maxX
|| minY > maxY` does not fire, and the code returns a `1 × 1` box that
exceeds the buffer bounds. -/
theorem contentBox_within_bounds_cex :
    ¬ ((detectContentBoundingBox (fun _ => 0) 0 0 10 true ⟨255, 255, 255⟩).x +
        (detectContentBoundingBox (fun _ => 0) 0 0 10 true ⟨255, 255, 255⟩).width ≤ 0) := by
  decide

/-- Witness for the amended C8 on a fully opaque 2×2 alpha-mode buffer. -/
theorem contentBox_within_bounds_witness :
    ((1 : ℕ) ≤ 2 ∨ (1 : ℕ) ≤ 2) ∧
      (0 ≤ (detectContentBoundingBox (fun _ => 255) 2 2 10 true ⟨255, 255, 255⟩).x ∧
        0 ≤ (detectContentBoundingBox (fun _ => 255) 2 2 10 true ⟨255, 255, 255⟩).y ∧
        (detectContentBoundingBox (fun _ => 255) 2 2 10 true ⟨255, 255, 255⟩).x +
          (detectContentBoundingBox (fun _ => 255) 2 2 10 true ⟨255, 255, 255⟩).width ≤ 2 ∧
        (detectContentBoundingBox (fun _ => 255) 2 2 10 true ⟨255, 255, 255⟩).y +
          (detectContentBoundingBox (fun _ => 255) 2 2 10 true ⟨255, 255, 255⟩).height ≤ 2) :=
  ⟨Or.inl (by decide),
    contentBox_within_bounds (fun _ => 255) 2 2 10 true ⟨255, 255, 255⟩ (Or.inl (by decide))⟩

theorem detect_dims_pos (pixels : ℕ → ℕ) (width height threshold : ℕ)
    (alphaOnly : Bool) (bg : RGB) (hw : 1 ≤ width) (hh : 1 ≤ height) :
    1 ≤ (detectContentBoundingBox pixels width height threshold alphaOnly bg).width ∧
      1 ≤ (detectContentBoundingBox pixels width height threshold alphaOnly bg).height := by
  simp only [detectContentBoundingBox]
  split
  · exact ⟨hw, hh⟩
  · refine ⟨?_, ?_⟩ <;> dsimp only <;> omega

theorem analyze_isSome_of_box (pixels : ℕ → ℕ) (width height threshold : ℕ)
    (alphaOnly : Bool) (bg : RGB)
    (hne : ¬ ((detectContentBoundingBox pixels width height threshold alphaOnly bg).width = 0 ∨
      (detectContentBoundingBox pixels width height threshold alphaOnly bg).height = 0)) :
    (analyze pixels width height threshold alphaOnly bg).isSome = true := by
  simp only [analyze]
  rw [if_neg hne]
  rfl

/-- C10: for every pixel buffer with width ≥ 1 and height ≥ 1 the extractor
always produces a Metrics value and never returns the no-content result:
even without content pixels the bounding box falls back to the full-canvas
rectangle, whose dimensions are positive, so the caller's zero-dimension
check never fires. -/
theorem analyze_total (pixels : ℕ → ℕ) (width height threshold : ℕ)
    (alphaOnly : Bool) (bg : RGB) (hw : 1 ≤ width) (hh : 1 ≤ height) :
    (analyze pixels width height threshold alphaOnly bg).isSome = true := by
  have hd := detect_dims_pos pixels width height threshold alphaOnly bg hw hh
  refine analyze_isSome_of_box pixels width height threshold alphaOnly bg ?_
  rintro (h | h) <;> omega

/-- Witness for C10 on a 1×1 fully transparent buffer. -/
theorem analyze_total_witness :
    (1 : ℕ) ≤ 1 ∧ (analyze (fun _ => 0) 1 1 10 true ⟨255, 255, 255⟩).isSome = true :=
  ⟨Nat.le_refl 1,
    analyze_total (fun _ => 0) 1 1 10 true ⟨255, 255, 255⟩ (Nat.le_refl 1) (Nat.le_refl 1)⟩

/-- C1 (amended): for every decoded pixel buffer of positive width and
height in which no pixel is classified as content, bounding-box detection
falls back to the full-canvas box and the extractor returns a Metrics value
rather than the no-content result; the no-content result can only arise
when the buffer width or height is zero. -/
theorem analyze_no_content_fallback (pixels : ℕ → ℕ) (width height threshold : ℕ)
    (alphaOnly : Bool) (bg : RGB) (hw : 1 ≤ width) (hh : 1 ≤ height)
    (hnc : ∀ p ∈ coords height width,
      isContentPixel (pixels ((p.1 * width + p.2) * 4)) (pixels ((p.1 * width + p.2) * 4 + 1))
        (pixels ((p.1 * width + p.2) * 4 + 2)) (pixels ((p.1 * width + p.2) * 4 + 3))
        threshold alphaOnly bg = false) :
    detectContentBoundingBox pixels width height threshold alphaOnly bg =
        ⟨0, 0, width, height⟩ ∧
      (analyze pixels width height threshold alphaOnly bg).isSome = true := by
  have hfold := bboxFold_of_no_content pixels width threshold alphaOnly bg
    (coords height width) ⟨width, height, 0, 0⟩ hnc
  have hbox : detectContentBoundingBox pixels width height threshold alphaOnly bg =
      ⟨0, 0, width, height⟩ := by
    simp only [detectContentBoundingBox]
    rw [hfold]
    rw [if_pos (show (0 : ℕ) < width ∨ 0 < height from Or.inl hw)]
  refine ⟨hbox, analyze_isSome_of_box pixels width height threshold alphaOnly bg ?_⟩
  rw [hbox]
  rintro (h | h) <;> dsimp only at h <;> omega

/-- C1 counterexample: the all-transparent 2×2 alpha-mode buffer has no
content pixel at all, yet the extractor produces a Metrics value via the
full-canvas fallback — it does not return the no-content result. -/
theorem analyze_no_content_cex :
    ((coords 2 2).all fun p =>
        !(isContentPixel ((fun _ => 0) ((p.1 * 2 + p.2) * 4))
          ((fun _ => 0) ((p.1 * 2 + p.2) * 4 + 1)) ((fun _ => 0) ((p.1 * 2 + p.2) * 4 + 2))
          ((fun _ => 0) ((p.1 * 2 + p.2) * 4 + 3)) 10 true ⟨255, 255, 255⟩)) = true ∧
      (analyze (fun _ => 0) 2 2 10 true ⟨255, 255, 255⟩).isSome = true :=
  ⟨by decide, analyze_isSome_of_box (fun _ => 0) 2 2 10 true ⟨255, 255, 255⟩ (by decide)⟩

/-- Witness for the amended C1 on the all-transparent 2×2 alpha-mode
buffer. -/
theorem analyze_no_content_fallback_witness :
    detectContentBoundingBox (fun _ => 0) 2 2 10 true ⟨255, 255, 255⟩ = ⟨0, 0, 2, 2⟩ ∧
      (analyze (fun _ => 0) 2 2 10 true ⟨255, 255, 255⟩).isSome = true :=
  analyze_no_content_fallback (fun _ => 0) 2 2 10 true ⟨255, 255, 255⟩
    (by decide) (by decide) (by decide)

theorem densityFold_opacity_bounds (pixels : ℕ → ℕ) (width threshold : ℕ) (alphaOnly : Bool)
    (box : ContentBox) (hbytes : ∀ i, pixels i ≤ 255) (l : List (ℕ × ℕ)) :
    0 ≤ (l.foldl (densityStep pixels width threshold alphaOnly box) (0, 0)).2 ∧
      (l.foldl (densityStep pixels width threshold alphaOnly box) (0, 0)).2 ≤
        ((l.foldl (densityStep pixels width threshold alphaOnly box) (0, 0)).1 : ℚ) := by
  refine foldl_inv _ (fun s : ℕ × ℚ => 0 ≤ s.2 ∧ s.2 ≤ (s.1 : ℚ)) l (0, 0)
    ⟨le_refl 0, by norm_num⟩ ?_
  intro b a _ hb
  obtain ⟨h0, h1⟩ := hb
  simp only [densityStep]
  split
  · dsimp only
    have ha : (pixels (((box.y + a.1) * width + (box.x + a.2)) * 4 + 3) : ℚ) ≤ 255 := by
      exact_mod_cast hbytes (((box.y + a.1) * width + (box.x + a.2)) * 4 + 3)
    have ha0 : (0 : ℚ) ≤ (pixels (((box.y + a.1) * width + (box.x + a.2)) * 4 + 3) : ℚ) := by
      positivity
    have hdiv1 : (pixels (((box.y + a.1) * width + (box.x + a.2)) * 4 + 3) : ℚ) / 255 ≤ 1 := by
      rw [div_le_one (by norm_num)]
      linarith
    have hdiv0 : (0 : ℚ) ≤
        (pixels (((box.y + a.1) * width + (box.x + a.2)) * 4 + 3) : ℚ) / 255 := by
      positivity
    constructor
    · linarith
    · push_cast
      linarith
  · exact ⟨h0, h1⟩

theorem densityFold_count_le (pixels : ℕ → ℕ) (width threshold : ℕ) (alphaOnly : Bool)
    (box : ContentBox) :
    ∀ (l : List (ℕ × ℕ)) (s : ℕ × ℚ),
      (l.foldl (densityStep pixels width threshold alphaOnly box) s).1 ≤ s.1 + l.length
  | [], _ => by simp
  | x :: xs, s => by
    have hstep : (densityStep pixels width threshold alphaOnly box s x).1 ≤ s.1 + 1 := by
      simp only [densityStep]
      split
      · dsimp only
        omega
      · omega
    have ih := densityFold_count_le pixels width threshold alphaOnly box xs
      (densityStep pixels width threshold alphaOnly box s x)
    rw [List.foldl_cons]
    simp only [List.length_cons]
    omega

theorem densityFold_no_fill (pixels : ℕ → ℕ) (width threshold : ℕ) (alphaOnly : Bool)
    (box : ContentBox) :
    ∀ (l : List (ℕ × ℕ)) (s : ℕ × ℚ),
      (∀ p ∈ l, isContentPixel (pixels (((box.y + p.1) * width + (box.x + p.2)) * 4))
        (pixels (((box.y + p.1) * width + (box.x + p.2)) * 4 + 1))
        (pixels (((box.y + p.1) * width + (box.x + p.2)) * 4 + 2))
        (pixels (((box.y + p.1) * width + (box.x + p.2)) * 4 + 3))
        threshold alphaOnly ⟨255, 255, 255⟩ = false) →
      l.foldl (densityStep pixels width threshold alphaOnly box) s = s
  | [], _, _ => rfl
  | x :: xs, s, hnf => by
    have hx := hnf x (List.mem_cons_self x xs)
    have hstep : densityStep pixels width threshold alphaOnly box s x = s := by
      simp [densityStep, hx]
    rw [List.foldl_cons, hstep]
    exact densityFold_no_fill pixels width threshold alphaOnly box xs s
      fun p hp => hnf p (List.mem_cons_of_mem x hp)

/-- C3: the pixel density always lies in `[0, 1]`; it equals `1/2` when the
content box contains zero pixels, and `0` when the box is nonempty but none
of its pixels is classified as filled against the fixed white background
(the zero-pixel case is checked first in the code, so the zero-density case
applies to nonempty boxes). The buffer holds bytes: every value is at most
255. -/
theorem measurePixelDensity_spec (pixels : ℕ → ℕ) (width : ℕ) (box : ContentBox)
    (threshold : ℕ) (alphaOnly : Bool) (hbytes : ∀ i, pixels i ≤ 255) :
    (0 ≤ measurePixelDensity pixels width box threshold alphaOnly ∧
        measurePixelDensity pixels width box threshold alphaOnly ≤ 1) ∧
      (box.width * box.height = 0 →
        measurePixelDensity pixels width box threshold alphaOnly = 1 / 2) ∧
      (box.width * box.height ≠ 0 →
        (∀ p ∈ coords box.height box.width,
          isContentPixel (pixels (((box.y + p.1) * width + (box.x + p.2)) * 4))
            (pixels (((box.y + p.1) * width + (box.x + p.2)) * 4 + 1))
            (pixels (((box.y + p.1) * width + (box.x + p.2)) * 4 + 2))
            (pixels (((box.y + p.1) * width + (box.x + p.2)) * 4 + 3))
            threshold alphaOnly ⟨255, 255, 255⟩ = false) →
        measurePixelDensity pixels width box threshold alphaOnly = 0) := by
  by_cases ht : box.width * box.height = 0
  · have hd : measurePixelDensity pixels width box threshold alphaOnly = 1 / 2 := by
      simp only [measurePixelDensity]
      rw [if_pos ht]
    rw [hd]
    exact ⟨⟨by norm_num, by norm_num⟩, fun _ => rfl, fun hne _ => absurd ht hne⟩
  · simp only [measurePixelDensity]
    rw [if_neg ht]
    set F := (coords box.height box.width).foldl
      (densityStep pixels width threshold alphaOnly box) (0, 0) with hF
    by_cases hf : F.1 = 0
    · rw [if_pos hf]
      exact ⟨⟨le_refl 0, by norm_num⟩, fun h => absurd h ht, fun _ _ => rfl⟩
    · rw [if_neg hf]
      have hob := densityFold_opacity_bounds pixels width threshold alphaOnly box hbytes
        (coords box.height box.width)
      rw [← hF] at hob
      have hcount := densityFold_count_le pixels width threshold alphaOnly box
        (coords box.height box.width) (0, 0)
      rw [← hF, coords_length] at hcount
      have hcount2 : F.1 ≤ box.width * box.height := by
        rw [Nat.mul_comm]
        simpa using hcount
      have hFpos : 0 < F.1 := Nat.pos_of_ne_zero hf
      have htot : 0 < box.width * box.height := Nat.pos_of_ne_zero ht
      have htotQ : (0 : ℚ) < ((box.width * box.height : ℕ) : ℚ) := by exact_mod_cast htot
      have hFQ : (0 : ℚ) < (F.1 : ℚ) := by exact_mod_cast hFpos
      refine ⟨⟨?_, ?_⟩, fun h => absurd h ht, fun _ hnf => ?_⟩
      · exact mul_nonneg (div_nonneg (by positivity) (by positivity))
          (div_nonneg hob.1 (by positivity))
      · refine mul_le_one₀ ?_ (div_nonneg hob.1 (by positivity)) ?_
        · rw [div_le_one htotQ]
          exact_mod_cast hcount2
        · rw [div_le_one hFQ]
          exact hob.2
      · exfalso
        have hzero := densityFold_no_fill pixels width threshold alphaOnly box
          (coords box.height box.width) (0, 0) hnf
        rw [← hF] at hzero
        exact hf (by rw [hzero])

/-- Witness for C3 (bounds part) on an all-transparent 2×2 buffer with the
full-canvas box. -/
theorem measurePixelDensity_spec_witness :
    0 ≤ measurePixelDensity (fun _ => 0) 2 ⟨0, 0, 2, 2⟩ 10 true ∧
      measurePixelDensity (fun _ => 0) 2 ⟨0, 0, 2, 2⟩ 10 true ≤ 1 :=
  (measurePixelDensity_spec (fun _ => 0) 2 ⟨0, 0, 2, 2⟩ 10 true fun _ => Nat.zero_le 255).1

theorem round_le_round {x y : ℝ} (h : x ≤ y) : round x ≤ round y := by
  rw [round_eq, round_eq]
  exact Int.floor_le_floor (by linarith)

theorem rawWidth_pos {m : Metrics} {o : NormalizeOptions}
    (hr : 0 < m.contentRatio) (hb : 0 < o.baseSize) : 0 < rawWidth m o :=
  mul_pos (Real.rpow_pos_of_pos hr _) hb

theorem rawHeight_pos {m : Metrics} {o : NormalizeOptions}
    (hr : 0 < m.contentRatio) (hb : 0 < o.baseSize) : 0 < rawHeight m o :=
  div_pos (rawWidth_pos hr hb) hr

theorem clampedScale_pos (m : Metrics) (o : NormalizeOptions) : 0 < clampedScale m o :=
  lt_of_lt_of_le (by norm_num) (le_max_left _ _)

theorem scaledWidth_pos {m : Metrics} {o : NormalizeOptions}
    (hr : 0 < m.contentRatio) (hb : 0 < o.baseSize) : 0 < scaledWidth m o := by
  unfold scaledWidth
  split
  · exact mul_pos (rawWidth_pos hr hb) (clampedScale_pos m o)
  · exact rawWidth_pos hr hb

theorem scaledHeight_pos {m : Metrics} {o : NormalizeOptions}
    (hr : 0 < m.contentRatio) (hb : 0 < o.baseSize) : 0 < scaledHeight m o := by
  unfold scaledHeight
  split
  · exact mul_pos (rawHeight_pos hr hb) (clampedScale_pos m o)
  · exact rawHeight_pos hr hb

/-- C2 (amended): for contentRatio > 0 and baseSize > 0 the width and height
returned by `normalize` are nonnegative integers; they can round down to `0`
when the pre-rounding size falls below one half. -/
theorem normalize_dims_nonneg (m : Metrics) (o : NormalizeOptions)
    (hr : 0 < m.contentRatio) (hb : 0 < o.baseSize) :
    0 ≤ (normalize m o).width ∧ 0 ≤ (normalize m o).height := by
  have hw := scaledWidth_pos hr hb
  have hh := scaledHeight_pos hr hb
  constructor
  · show 0 ≤ round (scaledWidth m o)
    rw [round_eq]
    exact Int.floor_nonneg.mpr (by linarith)
  · show 0 ≤ round (scaledHeight m o)
    rw [round_eq]
    exact Int.floor_nonneg.mpr (by linarith)

/-- C2 counterexample: at `contentRatio = 1/100`, `scaleFactor = 1`,
`baseSize = 1` (and density compensation off), the pre-rounding width is
`0.01`, which `Math.round` takes to `0` — not a strictly positive integer,
although `contentRatio > 0` and `baseSize > 0`. -/
theorem normalize_dims_pos_cex :
    0 < (⟨1 / 100, 0, 0, 0⟩ : Metrics).contentRatio ∧
      0 < (⟨1, 1, 0, 1 / 2, 7 / 20⟩ : NormalizeOptions).baseSize ∧
      (normalize ⟨1 / 100, 0, 0, 0⟩ ⟨1, 1, 0, 1 / 2, 7 / 20⟩).width = 0 := by
  refine ⟨by norm_num, by norm_num, ?_⟩
  show round (scaledWidth _ _) = 0
  have h1 : scaledWidth (⟨1 / 100, 0, 0, 0⟩ : Metrics)
      (⟨1, 1, 0, 1 / 2, 7 / 20⟩ : NormalizeOptions) = 1 / 100 := by
    unfold scaledWidth rawWidth
    rw [if_neg (by norm_num)]
    show (1 / 100 : ℝ) ^ (1 : ℝ) * 1 = 1 / 100
    rw [Real.rpow_one]
    norm_num
  rw [h1, round_eq_zero_iff]
  constructor <;> norm_num

/-- Witness for the amended C2 at the same input as the counterexample. -/
theorem normalize_dims_nonneg_witness :
    0 < (⟨1 / 100, 0, 0, 0⟩ : Metrics).contentRatio ∧
      0 < (⟨1, 1, 0, 1 / 2, 7 / 20⟩ : NormalizeOptions).baseSize ∧
      (0 ≤ (normalize ⟨1 / 100, 0, 0, 0⟩ ⟨1, 1, 0, 1 / 2, 7 / 20⟩).width ∧
        0 ≤ (normalize ⟨1 / 100, 0, 0, 0⟩ ⟨1, 1, 0, 1 / 2, 7 / 20⟩).height) :=
  ⟨by norm_num, by norm_num,
    normalize_dims_nonneg ⟨1 / 100, 0, 0, 0⟩ ⟨1, 1, 0, 1 / 2, 7 / 20⟩
      (by norm_num) (by norm_num)⟩

theorem round_eq_intCast_of {x : ℝ} {n : ℤ} (h1 : (n : ℝ) ≤ x + 1 / 2)
    (h2 : x + 1 / 2 < n + 1) : round x = n := by
  rw [round_eq]
  exact Int.floor_eq_iff.mpr ⟨h1, h2⟩

/-- C5 (amended): increasing `contentRatio` while holding the rest fixed
strictly increases the pre-rounding width when `scaleFactor > 0`,
`baseSize > 0` and the ratios are positive; the rounded integer width is
then at least as large (integer rounding can map nearby widths to the same
value). The width depends on the metrics only through `contentRatio` and
`pixelDensity`, so holding `pixelDensity` fixed captures a pair differing
only in `contentRatio`. -/
theorem scaledWidth_ratio_strictMono (m₁ m₂ : Metrics) (o : NormalizeOptions)
    (hs : 0 < o.scaleFactor) (hb : 0 < o.baseSize)
    (h1 : 0 < m₁.contentRatio) (hlt : m₁.contentRatio < m₂.contentRatio)
    (hpd : m₁.pixelDensity = m₂.pixelDensity) :
    scaledWidth m₁ o < scaledWidth m₂ o ∧
      (normalize m₁ o).width ≤ (normalize m₂ o).width := by
  have hraw : rawWidth m₁ o < rawWidth m₂ o :=
    mul_lt_mul_of_pos_right (Real.rpow_lt_rpow h1.le hlt hs) hb
  have hcs : clampedScale m₁ o = clampedScale m₂ o := by
    unfold clampedScale densityScale
    rw [hpd]
  have hmain : scaledWidth m₁ o < scaledWidth m₂ o := by
    unfold scaledWidth
    rw [hpd, hcs]
    by_cases hc : 0 < o.densityFactor ∧ 0 < m₂.pixelDensity
    · rw [if_pos hc, if_pos hc]
      exact mul_lt_mul_of_pos_right hraw (clampedScale_pos m₂ o)
    · rw [if_neg hc, if_neg hc]
      exact hraw
  exact ⟨hmain, round_le_round hmain.le⟩

/-- C5 counterexample: with `scaleFactor = 1`, `baseSize = 48` and density
compensation off, the ratios `1` and `1.001` give pre-rounding widths `48`
and `48.048`, which both round to the integer width `48` — the larger ratio
does not yield a strictly larger normalized width. -/
theorem scaledWidth_ratio_strictMono_cex :
    0 < (⟨48, 1, 0, 1 / 2, 7 / 20⟩ : NormalizeOptions).scaleFactor ∧
      (⟨1, 0, 0, 0⟩ : Metrics).contentRatio <
        (⟨1001 / 1000, 0, 0, 0⟩ : Metrics).contentRatio ∧
      (normalize ⟨1, 0, 0, 0⟩ ⟨48, 1, 0, 1 / 2, 7 / 20⟩).width =
        (normalize ⟨1001 / 1000, 0, 0, 0⟩ ⟨48, 1, 0, 1 / 2, 7 / 20⟩).width := by
  refine ⟨by norm_num, by norm_num, ?_⟩
  show round (scaledWidth _ _) = round (scaledWidth _ _)
  have h1 : scaledWidth (⟨1, 0, 0, 0⟩ : Metrics)
      (⟨48, 1, 0, 1 / 2, 7 / 20⟩ : NormalizeOptions) = 48 := by
    unfold scaledWidth rawWidth
    rw [if_neg (by norm_num)]
    show (1 : ℝ) ^ (1 : ℝ) * 48 = 48
    rw [Real.rpow_one]
    norm_num
  have h2 : scaledWidth (⟨1001 / 1000, 0, 0, 0⟩ : Metrics)
      (⟨48, 1, 0, 1 / 2, 7 / 20⟩ : NormalizeOptions) = 6006 / 125 := by
    unfold scaledWidth rawWidth
    rw [if_neg (by norm_num)]
    show (1001 / 1000 : ℝ) ^ (1 : ℝ) * 48 = 6006 / 125
    rw [Real.rpow_one]
    norm_num
  have r1 : round ((48 : ℝ)) = (48 : ℤ) := round_eq_intCast_of (by norm_num) (by norm_num)
  have r2 : round ((6006 / 125 : ℝ)) = (48 : ℤ) :=
    round_eq_intCast_of (by norm_num) (by norm_num)
  rw [h1, h2, r1, r2]

/-- Witness for the amended C5 at ratios `1 < 2` with `scaleFactor = 1`,
`baseSize = 48`. -/
theorem scaledWidth_ratio_strictMono_witness :
    (0 < (⟨48, 1, 0, 1 / 2, 7 / 20⟩ : NormalizeOptions).scaleFactor ∧
        (⟨1, 0, 0, 0⟩ : Metrics).contentRatio < (⟨2, 0, 0, 0⟩ : Metrics).contentRatio) ∧
      scaledWidth ⟨1, 0, 0, 0⟩ ⟨48, 1, 0, 1 / 2, 7 / 20⟩ <
        scaledWidth ⟨2, 0, 0, 0⟩ ⟨48, 1, 0, 1 / 2, 7 / 20⟩ ∧
      (normalize ⟨1, 0, 0, 0⟩ ⟨48, 1, 0, 1 / 2, 7 / 20⟩).width ≤
        (normalize ⟨2, 0, 0, 0⟩ ⟨48, 1, 0, 1 / 2, 7 / 20⟩).width :=
  ⟨⟨by norm_num, by norm_num⟩,
    scaledWidth_ratio_strictMono ⟨1, 0, 0, 0⟩ ⟨2, 0, 0, 0⟩ ⟨48, 1, 0, 1 / 2, 7 / 20⟩
      (by norm_num) (by norm_num) (by norm_num) (by norm_num) rfl⟩

/-- C6 (amended): with equal positive contentRatio, `baseSize > 0`,
`densityFactor > 0`, `densityDampening > 0` and `referenceDensity > 0`,
raising `pixelDensity` strictly above `referenceDensity` strictly decreases
the pre-rounding width and height relative to `pixelDensity =
referenceDensity`; the rounded integer dimensions are then at most as large
(integer rounding can map the two sizes to the same value). -/
theorem scaled_density_antitone (m₁ m₂ : Metrics) (o : NormalizeOptions)
    (hratio : m₁.contentRatio = m₂.contentRatio) (hr : 0 < m₁.contentRatio)
    (hb : 0 < o.baseSize) (hdf : 0 < o.densityFactor) (hdd : 0 < o.densityDampening)
    (href : 0 < o.referenceDensity)
    (h1 : m₁.pixelDensity = o.referenceDensity)
    (h2 : o.referenceDensity < m₂.pixelDensity) :
    (scaledWidth m₂ o < scaledWidth m₁ o ∧ scaledHeight m₂ o < scaledHeight m₁ o) ∧
      (normalize m₂ o).width ≤ (normalize m₁ o).width ∧
      (normalize m₂ o).height ≤ (normalize m₁ o).height := by
  have hpd2 : 0 < m₂.pixelDensity := href.trans h2
  have hc1 : clampedScale m₁ o = 1 := by
    unfold clampedScale densityScale
    rw [h1, div_self href.ne', one_div_one, Real.one_rpow]
    norm_num [min_def, max_def]
  have hs2 : densityScale m₂ o < 1 := by
    unfold densityScale
    rw [one_div_div]
    exact Real.rpow_lt_one (by positivity)
      ((div_lt_one hpd2).mpr h2) (mul_pos hdf hdd)
  have hc2 : clampedScale m₂ o < 1 := by
    unfold clampedScale
    exact max_lt (by norm_num) (lt_of_le_of_lt (min_le_right _ _) hs2)
  have hrw : rawWidth m₁ o = rawWidth m₂ o := by
    unfold rawWidth
    rw [hratio]
  have hrh : rawHeight m₁ o = rawHeight m₂ o := by
    unfold rawHeight rawWidth
    rw [hratio]
  have hwpos : 0 < rawWidth m₂ o := by
    rw [← hrw]
    exact rawWidth_pos hr hb
  have hhpos : 0 < rawHeight m₂ o := by
    rw [← hrh]
    exact rawHeight_pos hr hb
  have hw : scaledWidth m₂ o < scaledWidth m₁ o := by
    unfold scaledWidth
    rw [if_pos ⟨hdf, hpd2⟩, if_pos ⟨hdf, h1 ▸ href⟩, hc1, hrw, mul_one]
    exact (mul_lt_iff_lt_one_right hwpos).mpr hc2
  have hh : scaledHeight m₂ o < scaledHeight m₁ o := by
    unfold scaledHeight
    rw [if_pos ⟨hdf, hpd2⟩, if_pos ⟨hdf, h1 ▸ href⟩, hc1, hrh, mul_one]
    exact (mul_lt_iff_lt_one_right hhpos).mpr hc2
  exact ⟨⟨hw, hh⟩, round_le_round hw.le, round_le_round hh.le⟩

/-- C6 counterexample: with `baseSize = 10`, `scaleFactor = 1`,
`densityFactor = 1`, `densityDampening = 1` and `referenceDensity = 1`, the
densities `1.01` (above the reference) and `1` (equal to the reference) give
pre-rounding widths `1000/101 ≈ 9.90` and `10`, which both round to the
integer width `10` — the denser input does not yield a strictly smaller
normalized width. -/
theorem scaled_density_antitone_cex :
    (⟨10, 1, 1, 1, 1⟩ : NormalizeOptions).referenceDensity <
        (⟨1, 101 / 100, 0, 0⟩ : Metrics).pixelDensity ∧
      0 < (⟨10, 1, 1, 1, 1⟩ : NormalizeOptions).densityFactor ∧
      (normalize ⟨1, 101 / 100, 0, 0⟩ ⟨10, 1, 1, 1, 1⟩).width =
        (normalize ⟨1, 1, 0, 0⟩ ⟨10, 1, 1, 1, 1⟩).width := by
  refine ⟨by norm_num, by norm_num, ?_⟩
  show round (scaledWidth _ _) = round (scaledWidth _ _)
  have h1 : scaledWidth (⟨1, 101 / 100, 0, 0⟩ : Metrics)
      (⟨10, 1, 1, 1, 1⟩ : NormalizeOptions) = 1000 / 101 := by
    unfold scaledWidth rawWidth clampedScale densityScale
    rw [if_pos ⟨by norm_num, by norm_num⟩]
    show (1 : ℝ) ^ (1 : ℝ) * 10 *
        max 0.5 (min 2.0 ((1 / (101 / 100 / 1) : ℝ) ^ ((1 : ℝ) * 1))) = 1000 / 101
    rw [Real.rpow_one, show ((1 : ℝ) * 1) = 1 by norm_num,
      show ((1 / (101 / 100 / 1) : ℝ)) = 100 / 101 by norm_num, Real.rpow_one]
    norm_num [min_def, max_def]
  have h2 : scaledWidth (⟨1, 1, 0, 0⟩ : Metrics)
      (⟨10, 1, 1, 1, 1⟩ : NormalizeOptions) = 10 := by
    unfold scaledWidth rawWidth clampedScale densityScale
    rw [if_pos ⟨by norm_num, by norm_num⟩]
    show (1 : ℝ) ^ (1 : ℝ) * 10 *
        max 0.5 (min 2.0 ((1 / (1 / 1) : ℝ) ^ ((1 : ℝ) * 1))) = 10
    rw [Real.rpow_one, show ((1 : ℝ) * 1) = 1 by norm_num,
      show ((1 / (1 / 1) : ℝ)) = 1 by norm_num, Real.one_rpow]
    norm_num [min_def, max_def]
  have r1 : round ((1000 / 101 : ℝ)) = (10 : ℤ) :=
    round_eq_intCast_of (by norm_num) (by norm_num)
  have r2 : round ((10 : ℝ)) = (10 : ℤ) :=
    round_eq_intCast_of (by norm_num) (by norm_num)
  rw [h1, h2, r1, r2]

/-- Witness for the amended C6 at the default configuration with densities
`0.7` (dense) against `0.35` (the reference). -/
theorem scaled_density_antitone_witness :
    ((⟨1, 7 / 20, 0, 0⟩ : Metrics).pixelDensity =
          (⟨48, 1 / 2, 1 / 2, 1 / 2, 7 / 20⟩ : NormalizeOptions).referenceDensity ∧
        (⟨48, 1 / 2, 1 / 2, 1 / 2, 7 / 20⟩ : NormalizeOptions).referenceDensity <
          (⟨1, 7 / 10, 0, 0⟩ : Metrics).pixelDensity) ∧
      (scaledWidth ⟨1, 7 / 10, 0, 0⟩ ⟨48, 1 / 2, 1 / 2, 1 / 2, 7 / 20⟩ <
          scaledWidth ⟨1, 7 / 20, 0, 0⟩ ⟨48, 1 / 2, 1 / 2, 1 / 2, 7 / 20⟩ ∧
        scaledHeight ⟨1, 7 / 10, 0, 0⟩ ⟨48, 1 / 2, 1 / 2, 1 / 2, 7 / 20⟩ <
          scaledHeight ⟨1, 7 / 20, 0, 0⟩ ⟨48, 1 / 2, 1 / 2, 1 / 2, 7 / 20⟩) ∧
      (normalize ⟨1, 7 / 10, 0, 0⟩ ⟨48, 1 / 2, 1 / 2, 1 / 2, 7 / 20⟩).width ≤
        (normalize ⟨1, 7 / 20, 0, 0⟩ ⟨48, 1 / 2, 1 / 2, 1 / 2, 7 / 20⟩).width ∧
      (normalize ⟨1, 7 / 10, 0, 0⟩ ⟨48, 1 / 2, 1 / 2, 1 / 2, 7 / 20⟩).height ≤
        (normalize ⟨1, 7 / 20, 0, 0⟩ ⟨48, 1 / 2, 1 / 2, 1 / 2, 7 / 20⟩).height := by
  have h := scaled_density_antitone ⟨1, 7 / 20, 0, 0⟩ ⟨1, 7 / 10, 0, 0⟩
    ⟨48, 1 / 2, 1 / 2, 1 / 2, 7 / 20⟩ rfl (by norm_num) (by norm_num) (by norm_num)
    (by norm_num) (by norm_num) (by norm_num) (by norm_num)
  exact ⟨⟨by norm_num, by norm_num⟩, h.1, h.2⟩

/-- C7 (amended): with nonnegative pre-rounding width and height, a strictly
positive `visualCenterX` yields `offsetX ≤ 0` and a strictly negative
`visualCenterX` yields `offsetX ≥ 0` (likewise for the Y direction); the
offset is exactly `0` rather than strictly signed whenever the product of
the center displacement and the dimension rounds to zero at one-decimal
precision. -/
theorem normalize_offset_sign (m : Metrics) (o : NormalizeOptions)
    (hw : 0 ≤ scaledWidth m o) (hh : 0 ≤ scaledHeight m o) :
    (0 < m.visualCenterX → (normalize m o).offsetX ≤ 0) ∧
      (m.visualCenterX < 0 → 0 ≤ (normalize m o).offsetX) ∧
      (0 < m.visualCenterY → (normalize m o).offsetY ≤ 0) ∧
      (m.visualCenterY < 0 → 0 ≤ (normalize m o).offsetY) := by
  refine ⟨fun hx => ?_, fun hx => ?_, fun hy => ?_, fun hy => ?_⟩
  · show (round (-m.visualCenterX * scaledWidth m o * 10) : ℝ) / 10 ≤ 0
    have ht : -m.visualCenterX * scaledWidth m o * 10 ≤ 0 :=
      mul_nonpos_of_nonpos_of_nonneg
        (mul_nonpos_of_nonpos_of_nonneg (neg_nonpos.mpr hx.le) hw) (by norm_num)
    have hr : round (-m.visualCenterX * scaledWidth m o * 10) ≤ 0 := by
      have := round_le_round ht
      rwa [round_zero] at this
    have hr' : ((round (-m.visualCenterX * scaledWidth m o * 10) : ℤ) : ℝ) ≤ 0 := by
      exact_mod_cast hr
    linarith
  · show 0 ≤ (round (-m.visualCenterX * scaledWidth m o * 10) : ℝ) / 10
    have ht : 0 ≤ -m.visualCenterX * scaledWidth m o * 10 :=
      mul_nonneg (mul_nonneg (neg_nonneg.mpr hx.le) hw) (by norm_num)
    have hr : 0 ≤ round (-m.visualCenterX * scaledWidth m o * 10) := by
      have := round_le_round ht
      rwa [round_zero] at this
    have hr' : 0 ≤ ((round (-m.visualCenterX * scaledWidth m o * 10) : ℤ) : ℝ) := by
      exact_mod_cast hr
    linarith
  · show (round (-m.visualCenterY * scaledHeight m o * 10) : ℝ) / 10 ≤ 0
    have ht : -m.visualCenterY * scaledHeight m o * 10 ≤ 0 :=
      mul_nonpos_of_nonpos_of_nonneg
        (mul_nonpos_of_nonpos_of_nonneg (neg_nonpos.mpr hy.le) hh) (by norm_num)
    have hr : round (-m.visualCenterY * scaledHeight m o * 10) ≤ 0 := by
      have := round_le_round ht
      rwa [round_zero] at this
    have hr' : ((round (-m.visualCenterY * scaledHeight m o * 10) : ℤ) : ℝ) ≤ 0 := by
      exact_mod_cast hr
    linarith
  · show 0 ≤ (round (-m.visualCenterY * scaledHeight m o * 10) : ℝ) / 10
    have ht : 0 ≤ -m.visualCenterY * scaledHeight m o * 10 :=
      mul_nonneg (mul_nonneg (neg_nonneg.mpr hy.le) hh) (by norm_num)
    have hr : 0 ≤ round (-m.visualCenterY * scaledHeight m o * 10) := by
      have := round_le_round ht
      rwa [round_zero] at this
    have hr' : 0 ≤ ((round (-m.visualCenterY * scaledHeight m o * 10) : ℤ) : ℝ) := by
      exact_mod_cast hr
    linarith

/-- C7 counterexample: at `visualCenterX = 0.001` with width `48`, the raw
offset `-0.48` rounds to `0` at one-decimal precision, so a strictly
positive visual center yields `offsetX = 0`, not a strictly negative
offset. -/
theorem normalize_offset_sign_cex :
    0 < (⟨1, 0, 1 / 1000, 0⟩ : Metrics).visualCenterX ∧
      (normalize ⟨1, 0, 1 / 1000, 0⟩ ⟨48, 1, 0, 1 / 2, 7 / 20⟩).offsetX = 0 := by
  refine ⟨by norm_num, ?_⟩
  show (round (-(⟨1, 0, 1 / 1000, 0⟩ : Metrics).visualCenterX *
      scaledWidth ⟨1, 0, 1 / 1000, 0⟩ ⟨48, 1, 0, 1 / 2, 7 / 20⟩ * 10) : ℝ) / 10 = 0
  have h1 : scaledWidth (⟨1, 0, 1 / 1000, 0⟩ : Metrics)
      (⟨48, 1, 0, 1 / 2, 7 / 20⟩ : NormalizeOptions) = 48 := by
    unfold scaledWidth rawWidth
    rw [if_neg (by norm_num)]
    show (1 : ℝ) ^ (1 : ℝ) * 48 = 48
    rw [Real.rpow_one]
    norm_num
  rw [h1, show (-(⟨1, 0, 1 / 1000, 0⟩ : Metrics).visualCenterX * (48 : ℝ) * 10) =
    -(12 / 25) by norm_num]
  have h2 : round ((-(12 / 25) : ℝ)) = 0 := by
    rw [round_eq_zero_iff, Set.mem_Ico]
    constructor <;> norm_num
  rw [h2]
  norm_num

/-- Witness for the amended C7 at `visualCenterX = 0.5`,
`visualCenterY = -0.5`, width and height `48`. -/
theorem normalize_offset_sign_witness :
    (0 ≤ scaledWidth ⟨1, 0, 1 / 2, -(1 / 2)⟩ ⟨48, 1, 0, 1 / 2, 7 / 20⟩ ∧
        0 ≤ scaledHeight ⟨1, 0, 1 / 2, -(1 / 2)⟩ ⟨48, 1, 0, 1 / 2, 7 / 20⟩) ∧
      ((0 < (⟨1, 0, 1 / 2, -(1 / 2)⟩ : Metrics).visualCenterX →
          (normalize ⟨1, 0, 1 / 2, -(1 / 2)⟩ ⟨48, 1, 0, 1 / 2, 7 / 20⟩).offsetX ≤ 0) ∧
        ((⟨1, 0, 1 / 2, -(1 / 2)⟩ : Metrics).visualCenterX < 0 →
          0 ≤ (normalize ⟨1, 0, 1 / 2, -(1 / 2)⟩ ⟨48, 1, 0, 1 / 2, 7 / 20⟩).offsetX) ∧
        (0 < (⟨1, 0, 1 / 2, -(1 / 2)⟩ : Metrics).visualCenterY →
          (normalize ⟨1, 0, 1 / 2, -(1 / 2)⟩ ⟨48, 1, 0, 1 / 2, 7 / 20⟩).offsetY ≤ 0) ∧
        ((⟨1, 0, 1 / 2, -(1 / 2)⟩ : Metrics).visualCenterY < 0 →
          0 ≤ (normalize ⟨1, 0, 1 / 2, -(1 / 2)⟩ ⟨48, 1, 0, 1 / 2, 7 / 20⟩).offsetY)) := by
  have hw : scaledWidth (⟨1, 0, 1 / 2, -(1 / 2)⟩ : Metrics)
      (⟨48, 1, 0, 1 / 2, 7 / 20⟩ : NormalizeOptions) = 48 := by
    unfold scaledWidth rawWidth
    rw [if_neg (by norm_num)]
    show (1 : ℝ) ^ (1 : ℝ) * 48 = 48
    rw [Real.rpow_one]
    norm_num
  have hh : scaledHeight (⟨1, 0, 1 / 2, -(1 / 2)⟩ : Metrics)
      (⟨48, 1, 0, 1 / 2, 7 / 20⟩ : NormalizeOptions) = 48 := by
    unfold scaledHeight rawHeight rawWidth
    rw [if_neg (by norm_num)]
    show (1 : ℝ) ^ (1 : ℝ) * 48 / 1 = 48
    rw [Real.rpow_one]
    norm_num
  exact ⟨⟨by rw [hw]; norm_num, by rw [hh]; norm_num⟩,
    normalize_offset_sign ⟨1, 0, 1 / 2, -(1 / 2)⟩ ⟨48, 1, 0, 1 / 2, 7 / 20⟩
      (by rw [hw]; norm_num) (by rw [hh]; norm_num)⟩

/-- C9: the shared content-classification predicate returns true iff the
alpha channel strictly exceeds the threshold and, in color-mode, additionally
at least one of the R/G/B channels differs from the background channel by
strictly more than the threshold; in alpha-mode the alpha test alone decides. -/
theorem isContentPixel_iff (r g b a threshold : ℕ) (alphaOnly : Bool) (bg : RGB) :
    isContentPixel r g b a threshold alphaOnly bg = true ↔
      threshold < a ∧
        (alphaOnly = true ∨
          (threshold : ℤ) < |(r : ℤ) - (bg.r : ℤ)| ∨
          (threshold : ℤ) < |(g : ℤ) - (bg.g : ℤ)| ∨
          (threshold : ℤ) < |(b : ℤ) - (bg.b : ℤ)|) := by
  cases alphaOnly <;> simp [isContentPixel]
  tauto

/-- C4: whenever the density-compensation branch of `normalize` is taken
(`densityFactor > 0` and `pixelDensity > 0`), width and height are both
multiplied by one and the same clamped scale, and that scale always lies in
the interval `[0.5, 2.0]`. -/
theorem clampedScale_bounds (m : Metrics) (o : NormalizeOptions)
    (hdf : 0 < o.densityFactor) (hpd : 0 < m.pixelDensity) :
    (0.5 ≤ clampedScale m o ∧ clampedScale m o ≤ 2.0) ∧
      scaledWidth m o = rawWidth m o * clampedScale m o ∧
      scaledHeight m o = rawHeight m o * clampedScale m o := by
  refine ⟨⟨le_max_left _ _, max_le (by norm_num) (min_le_left _ _)⟩, ?_, ?_⟩
  · unfold scaledWidth
    rw [if_pos ⟨hdf, hpd⟩]
  · unfold scaledHeight
    rw [if_pos ⟨hdf, hpd⟩]

/-- Witness for C4 at the extreme density `pixelDensity = 100` with the
default configuration. -/
theorem clampedScale_bounds_witness :
    (0 < (⟨48, 1 / 2, 1 / 2, 1 / 2, 7 / 20⟩ : NormalizeOptions).densityFactor ∧
        0 < (⟨1, 100, 0, 0⟩ : Metrics).pixelDensity) ∧
      ((0.5 ≤ clampedScale ⟨1, 100, 0, 0⟩ ⟨48, 1 / 2, 1 / 2, 1 / 2, 7 / 20⟩ ∧
          clampedScale ⟨1, 100, 0, 0⟩ ⟨48, 1 / 2, 1 / 2, 1 / 2, 7 / 20⟩ ≤ 2.0) ∧
        scaledWidth ⟨1, 100, 0, 0⟩ ⟨48, 1 / 2, 1 / 2, 1 / 2, 7 / 20⟩ =
          rawWidth ⟨1, 100, 0, 0⟩ ⟨48, 1 / 2, 1 / 2, 1 / 2, 7 / 20⟩ *
            clampedScale ⟨1, 100, 0, 0⟩ ⟨48, 1 / 2, 1 / 2, 1 / 2, 7 / 20⟩ ∧
        scaledHeight ⟨1, 100, 0, 0⟩ ⟨48, 1 / 2, 1 / 2, 1 / 2, 7 / 20⟩ =
          rawHeight ⟨1, 100, 0, 0⟩ ⟨48, 1 / 2, 1 / 2, 1 / 2, 7 / 20⟩ *
            clampedScale ⟨1, 100, 0, 0⟩ ⟨48, 1 / 2, 1 / 2, 1 / 2, 7 / 20⟩) :=
  ⟨⟨by norm_num, by norm_num⟩,
    clampedScale_bounds ⟨1, 100, 0, 0⟩ ⟨48, 1 / 2, 1 / 2, 1 / 2, 7 / 20⟩
      (by norm_num) (by norm_num)⟩

end LogoSoup
